import Mathlib

/-!
Verification of the ingestion pipeline of `dev-charts` (GitHub PR activity
snapshot builder).  The definitions below are a shallow embedding of the
TypeScript source: the on-disk response cache and its key derivation
(`generateCacheKey`, `getCachedData`), the rate-limited request client with
retry/backoff (`cachedRequest`), the PR-list paginator with early termination
(`fetchAllPullRequests`), the per-commit statistics enrichment inside
`fetchPullRequestCommits`, the comment reconciliation
(`fetchPullRequestComments`), the batch scheduler (`processInBatches`) and the
snapshot assembler (the `main` accumulation loop).  Effectful TypeScript code
is embedded by passing the effect's outcome explicitly (network responses
appear as oracle functions, `Date.now()` and file mtimes as integer
millisecond timestamps, promise rejection as `Except.error`).
-/

/-- Substring test over the underlying character lists, used to embed
JavaScript's `String.prototype.includes`. -/
def charsStartsWith : List Char → List Char → Bool
  | [], _ => true
  | _ :: _, [] => false
  | p :: ps, c :: cs => p == c && charsStartsWith ps cs

/-- Check whether `pat` occurs as a contiguous subsequence of `hay`. -/
def charsHasSub (pat : List Char) : List Char → Bool
  | [] => pat.isEmpty
  | c :: cs => charsStartsWith pat (c :: cs) || charsHasSub pat cs

/-- Embedding of JavaScript's `s.includes(pat)`. -/
def strContains (s pat : String) : Bool :=
  charsHasSub pat.data s.data

/-- JSON values appearing as request parameters: the pipeline only ever passes
strings and numbers in parameter objects. -/
inductive JVal where
  | jstr (s : String)
  | jnum (n : Int)
deriving DecidableEq

/-- Escape a string the way `JSON.stringify` does for the characters the
pipeline uses (backslash and double quote; control characters do not occur in
the endpoint templates or parameters). -/
def jsonEscape (s : String) : String :=
  ⟨s.data.foldr (fun c acc =>
    if c = '\\' then '\\' :: '\\' :: acc
    else if c = '"' then '\\' :: '"' :: acc
    else c :: acc) []⟩

/-- Serialize a string as a JSON string literal. -/
def jsonQuote (s : String) : String :=
  "\"" ++ jsonEscape s ++ "\""

/-- Serialize a parameter value as `JSON.stringify` does. -/
def serializeJVal : JVal → String
  | .jstr s => jsonQuote s
  | .jnum n => toString n

/-- Serialize a parameter object.  `JSON.stringify` emits the properties of an
object in insertion order, so the parameter object is embedded as an ordered
association list and serialized in that order — no key sorting happens. -/
def serializeParams (params : List (String × JVal)) : String :=
  "\x7b" ++ String.intercalate ","
    (params.map (fun kv => jsonQuote kv.1 ++ ":" ++ serializeJVal kv.2)) ++ "\x7d"

/-- The exact string the source hashes:
`JSON.stringify({ method, url, params })` from `generateCacheKey`. -/
def serializeRequest (method url : String) (params : List (String × JVal)) : String :=
  "\x7b\"method\":" ++ jsonQuote method ++ ",\"url\":" ++ jsonQuote url ++
    ",\"params\":" ++ serializeParams params ++ "\x7d"

/-- A cache key.  The source computes
`crypto.createHash('md5').update(JSON.stringify({method,url,params})).digest('hex')`;
the md5 digest is modelled as an injective fingerprint of the hashed payload,
so the key is represented by the payload itself: the method, the endpoint
template and the parameter object in insertion order (exactly the data
`JSON.stringify` serializes, see `serializeRequest`). -/
structure CacheKey where
  method : String
  url : String
  params : List (String × JVal)
deriving DecidableEq

/-- Embedding of `generateCacheKey(method, url, params)`. -/
def generateCacheKey (method url : String) (params : List (String × JVal)) : CacheKey :=
  ⟨method, url, params⟩

-- Sanity check on concrete data: permuting parameter insertion order
-- changes the serialized payload.
example :
    serializeRequest "GET" "/x" [("a", .jstr "1"), ("b", .jstr "2")] ≠
      serializeRequest "GET" "/x" [("b", .jstr "2"), ("a", .jstr "1")] := by
  decide

/-- JSON values as returned by `JSON.parse` on a cached response body.  Arrays
and objects carry their element/field lists. -/
inductive JsonVal where
  | jnull
  | jbool (b : Bool)
  | jnum (n : Int)
  | jstr (s : String)
  | jarr (elems : List JsonVal)
  | jobj (fields : List (String × JsonVal))

/-- JavaScript truthiness of a parsed JSON value: `null`, `false`, `0` and the
empty string are falsy; every array and object (even empty) is truthy. -/
def truthy : JsonVal → Bool
  | .jnull => false
  | .jbool b => b
  | .jnum n => n != 0
  | .jstr s => s != ""
  | .jarr _ => true
  | .jobj _ => true

/-- An on-disk cache file for one request: its mtime in milliseconds and the
outcome of `JSON.parse` on its content (`none` embeds unparseable content,
whose read throws and is caught, returning `null`). -/
structure CacheFile where
  mtimeMs : Int
  parsed : Option JsonVal

/-- Milliseconds per day, the divisor in the cache-age computation
`(Date.now() - stats.mtimeMs) / (1000 * 60 * 60 * 24)`. -/
def msPerDay : Int := 1000 * 60 * 60 * 24

/-- Embedding of `getCachedData(cacheKey, ttlDays, forceCache)`.  The file
found under the key (or its absence) and the current time are passed
explicitly.  The source compares `(now - mtimeMs) / msPerDay <= ttlDays`; with
the positive divisor multiplied through this is `now - mtimeMs <= ttlDays *
msPerDay`. -/
def getCachedData (file : Option CacheFile) (ttlDays : Int) (forceCache : Bool)
    (now : Int) : Option JsonVal :=
  match file with
  | some f =>
    if forceCache then f.parsed
    else if now - f.mtimeMs ≤ ttlDays * msPerDay then f.parsed
    else none
  | none => none

/-- The guard `if (cachedData)` of `cachedRequest`: a lookup result counts as
a hit only when a value was returned and that value is truthy. -/
def isHit (o : Option JsonVal) : Bool :=
  match o with
  | some v => truthy v
  | none => false

/-- An error thrown by the raw API transport (`octokit.request`). -/
structure ApiError where
  status : Int
  message : String
deriving DecidableEq

/-- Errors that `cachedRequest` can surface to its caller: the forced-cache
miss error, the retries-exhausted error (whose payload is the full formatted
message, which embeds the original error message), or the original API error
rethrown unchanged. -/
inductive ReqError where
  | forcedMiss (method url : String)
  | retriesExhausted (msg : String)
  | api (e : ApiError)
deriving DecidableEq

/-- The retries-exhausted message
`Limite de tentativas excedido para ${method} ${url}: ${error.message}`. -/
def retriesMsg (method url origMsg : String) : String :=
  "Limite de tentativas excedido para " ++ method ++ " " ++ url ++ ": " ++ origMsg

/-- The rate-limit indicator looked for in a 403 error message. -/
def rateLimitIndicator : String := "API rate limit exceeded"

/-- The quota-exhaustion indicator looked for in an error message. -/
def quotaIndicator : String := "Request quota exhausted"

/-- One run of `cachedRequest`: its outcome, the backoff waits performed (in
milliseconds, in order) and the number of live API calls issued. -/
structure RunLog where
  result : Except ReqError JsonVal
  waits : List Nat
  liveCalls : Nat

/-- Embedding of `cachedRequest(octokit, method, url, params, ttlDays,
retryCount, forceCache)`.  The cache file under the request's key and the
clock are passed explicitly; `live n` is the outcome of the live API call made
with retry counter `n`.  Structure of the source: consult the cache and return
on a (truthy) hit; in forced mode with no hit, throw the forced-miss error;
otherwise issue the live call; on a 403 whose message includes the rate-limit
indicator, retry up to 3 times waiting `2^retryCount * 30000` ms, then throw
the retries-exhausted error; on a message including the quota indicator, the
same with `2^retryCount * 60000` ms; rethrow anything else.  (The successful
write-back to the cache does not affect the returned value and is not
modelled.)  The recursion of the source is bounded: each recursive call
increments `retryCount` and the guard `retryCount >= 3` throws before a fifth
nested attempt can happen, so the recursion is embedded structurally on a
`fuel` bound of 4 whose exhaustion branch is unreachable. -/
def cachedRequestGo (method url : String) (ttlDays : Int) (forceCache : Bool)
    (cache : Option CacheFile) (now : Int)
    (live : Nat → Except ApiError JsonVal) : Nat → Nat → RunLog
  | _, 0 =>
    -- Unreachable: starting fuel 4 always outlasts the retry guard.
    { result := .error (.retriesExhausted ""), waits := [], liveCalls := 0 }
  | retryCount, fuel + 1 =>
    if isHit (getCachedData cache ttlDays forceCache now) then
      { result := .ok ((getCachedData cache ttlDays forceCache now).getD .jnull),
        waits := [], liveCalls := 0 }
    else if forceCache then
      { result := .error (.forcedMiss method url), waits := [], liveCalls := 0 }
    else
      match live retryCount with
      | .ok v => { result := .ok v, waits := [], liveCalls := 1 }
      | .error e =>
        if e.status = 403 && strContains e.message rateLimitIndicator then
          if 3 ≤ retryCount then
            { result := .error (.retriesExhausted (retriesMsg method url e.message)),
              waits := [], liveCalls := 1 }
          else
            let waitTime := 2 ^ retryCount * 30000
            let r := cachedRequestGo method url ttlDays forceCache cache now live
              (retryCount + 1) fuel
            { result := r.result, waits := waitTime :: r.waits, liveCalls := 1 + r.liveCalls }
        else if e.message != "" && strContains e.message quotaIndicator then
          if 3 ≤ retryCount then
            { result := .error (.retriesExhausted (retriesMsg method url e.message)),
              waits := [], liveCalls := 1 }
          else
            let waitTime := 2 ^ retryCount * 60000
            let r := cachedRequestGo method url ttlDays forceCache cache now live
              (retryCount + 1) fuel
            { result := r.result, waits := waitTime :: r.waits, liveCalls := 1 + r.liveCalls }
        else
          { result := .error (.api e), waits := [], liveCalls := 1 }

/-- Embedding of `cachedRequest` entered with retry counter `retryCount`
(default 0 at every call site). -/
def cachedRequest (method url : String) (ttlDays : Int) (retryCount : Nat)
    (forceCache : Bool) (cache : Option CacheFile) (now : Int)
    (live : Nat → Except ApiError JsonVal) : RunLog :=
  cachedRequestGo method url ttlDays forceCache cache now live retryCount 4

/-- A user as embedded in every entity (a value type; the wire fields are
copied verbatim wherever a user is present). -/
structure User where
  login : String
  id : Int
  avatar_url : String
  html_url : String
deriving DecidableEq

/-- Placeholder user; only ever produced under a user-present filter, where
the source uses the non-null assertion `user!`. -/
def defaultUser : User := ⟨"", 0, "", ""⟩

/-- A label on a pull request. -/
structure Label where
  id : Int
  name : String
  color : String
  description : String
deriving DecidableEq

/-- Commit authorship metadata (free-text name/email/date, distinct from a
User account). -/
structure GitIdentity where
  name : String
  email : String
  date : String
deriving DecidableEq

/-- The nested `commit` block of a commit payload. -/
structure CommitMeta where
  author : GitIdentity
  committer : GitIdentity
  message : String
deriving DecidableEq

/-- Line-change statistics of a commit. -/
structure CommitStats where
  additions : Int
  deletions : Int
  total : Int
deriving DecidableEq

/-- A canonical commit record. -/
structure Commit where
  sha : String
  author : Option User
  committer : Option User
  commit : CommitMeta
  html_url : String
  stats : Option CommitStats
deriving DecidableEq

/-- A canonical review record. -/
structure Review where
  id : Int
  user : User
  body : Option String
  state : String
  submitted_at : String
  html_url : String
deriving DecidableEq

/-- The discriminator of the three comment sources. -/
inductive CommentType where
  | pr_review
  | pr_line
  | issue
deriving DecidableEq

/-- A canonical comment record. -/
structure Comment where
  id : Int
  user : User
  body : Option String
  created_at : String
  updated_at : String
  html_url : String
  comment_type : CommentType
  path : Option String := none
  position : Option Int := none
  original_position : Option Int := none
  commit_id : Option String := none
  diff_hunk : Option String := none
  in_reply_to_id : Option Int := none
deriving DecidableEq

/-- A review request: the API exposes no id and no request timestamp, so only
the requested user is ever populated. -/
structure ReviewRequest where
  user : User
deriving DecidableEq

/-- A repo reference inside a head/base branch triple. -/
structure RepoRef where
  id : Int
  name : String
  full_name : String
  html_url : String
deriving DecidableEq

/-- A head or base branch triple. -/
structure BranchRef where
  ref : String
  sha : String
  repo : RepoRef
deriving DecidableEq

/-- A canonical pull request record. -/
structure PullRequest where
  id : Int
  number : Int
  title : String
  user : User
  state : String
  created_at : String
  updated_at : String
  closed_at : Option String
  merged_at : Option String
  merge_commit_sha : Option String
  assignees : List User
  requested_reviewers : List User
  labels : List Label
  draft : Bool
  head : BranchRef
  base : BranchRef
  html_url : String
  commits : List Commit
  reviews : List Review
  review_requests : List ReviewRequest
  comments : List Comment
  additions : Int
  deletions : Int
  changed_files : Int
deriving DecidableEq

/-- A formatted license (4-field shape) or absent. -/
structure License where
  key : String
  name : String
  spdx_id : String
  url : String
deriving DecidableEq

/-- A canonical repository record (its `pull_requests` field is always set to
the empty list by the repository formatter; the populated PR list lives in the
snapshot mapping instead). -/
structure Repository where
  id : Int
  name : String
  full_name : String
  html_url : String
  description : Option String
  fork : Bool
  created_at : String
  updated_at : String
  pushed_at : String
  homepage : Option String
  size : Int
  stargazers_count : Int
  watchers_count : Int
  language : Option String
  forks_count : Int
  archived : Bool
  disabled : Bool
  open_issues_count : Int
  license : Option License
  topics : List String
  visibility : String
  default_branch : String
  pull_requests : List PullRequest
deriving DecidableEq

/-- The aggregate counters of a snapshot. -/
structure Summary where
  total_repositories : Nat
  total_pull_requests : Nat
  open_pull_requests : Nat
  closed_pull_requests : Nat
  merged_pull_requests : Nat
  total_commits : Nat
  total_comments : Nat
  total_reviews : Nat
  total_review_requests : Nat
  total_additions : Int
  total_deletions : Int
  total_changed_files : Int
deriving DecidableEq

/-- One entry of the snapshot's repositories mapping. -/
structure RepoData where
  repository : Repository
  pull_requests : List PullRequest
deriving DecidableEq

/-- The root snapshot artifact.  The `repositories` object is embedded as an
insertion-ordered association list from repository name to its entry. -/
structure Snapshot where
  organization : String
  generated_at : String
  repositories : List (String × RepoData)
  summary : Summary
deriving DecidableEq

/-- Wire-format commit authorship (`apiCommit.commit.author` /
`apiCommit.commit.committer`), each field possibly absent. -/
structure RawGitUser where
  name : Option String
  email : Option String
  date : Option String
deriving DecidableEq

/-- Wire-format commit item of a `GET .../pulls/{pull_number}/commits` page. -/
structure RawCommit where
  sha : String
  author : Option User
  committer : Option User
  commitAuthor : Option RawGitUser
  commitCommitter : Option RawGitUser
  message : String
  html_url : String
deriving DecidableEq

/-- Wire-format `stats` block of a detailed `GET .../commits/{ref}` response,
with each count possibly absent. -/
structure RawStats where
  additions : Option Int
  deletions : Option Int
  total : Option Int
deriving DecidableEq

/-- The field access `x?.f || ''` used on wire authorship blocks. -/
def optText (o : Option RawGitUser) (f : RawGitUser → Option String) : String :=
  (o.bind f).getD ""

/-- Formatting of one commit inside `fetchPullRequestCommits`, given the
`stats` block of the detailed per-commit response (`none` embeds a response
without a `stats` field, mapped to an absent `stats`). -/
def formatCommit (apiCommit : RawCommit) (st : Option RawStats) : Commit :=
  { sha := apiCommit.sha
    author := apiCommit.author
    committer := apiCommit.committer
    commit :=
      { author :=
          { name := optText apiCommit.commitAuthor (·.name)
            email := optText apiCommit.commitAuthor (·.email)
            date := optText apiCommit.commitAuthor (·.date) }
        committer :=
          { name := optText apiCommit.commitCommitter (·.name)
            email := optText apiCommit.commitCommitter (·.email)
            date := optText apiCommit.commitCommitter (·.date) }
        message := apiCommit.message }
    html_url := apiCommit.html_url
    stats := st.map (fun s => ⟨s.additions.getD 0, s.deletions.getD 0, s.total.getD 0⟩) }

/-- Embedding of the per-commit loop of `fetchPullRequestCommits` over one
page of commits.  `statsOf sha` is the outcome of the extra detailed call
`GET /repos/{owner}/{repo}/commits/{ref}`: `Except.error` embeds that call
throwing, `Except.ok st` a success whose `stats` block is `st`.  The source
wraps the detailed call, the formatting and the `commits.push` in one
`try`/`catch` whose handler only logs a warning, so a failed detailed call
skips the push: the commit is dropped from the result, and no error
propagates. -/
def processCommitPage (statsOf : String → Except ApiError (Option RawStats))
    (page : List RawCommit) : List Commit :=
  page.foldl (fun commits apiCommit =>
    match statsOf apiCommit.sha with
    | .error _ => commits
    | .ok st => commits ++ [formatCommit apiCommit st]) []

/-- Wire-format review item of a `GET .../pulls/{pull_number}/reviews` page. -/
structure RawReview where
  id : Int
  user : Option User
  body : Option String
  state : String
  submitted_at : Option String
  html_url : String
deriving DecidableEq

/-- Embedding of the page formatting inside `fetchPullRequestReviews`:
reviews with a null user are dropped, `submitted_at` defaults to the empty
string.  (The non-null assertion `review.user!` under the filter is embedded
as `Option.getD defaultUser`, never hit.) -/
def formatReviewPage (raws : List RawReview) : List Review :=
  (raws.filter (fun r => r.user.isSome)).map (fun r =>
    { id := r.id
      user := r.user.getD defaultUser
      body := r.body
      state := r.state
      submitted_at := r.submitted_at.getD ""
      html_url := r.html_url })

/-- Wire-format comment item (line-level or issue-style). -/
structure RawComment where
  id : Int
  user : Option User
  body : Option String
  created_at : Option String
  updated_at : Option String
  html_url : String
  path : Option String := none
  position : Option Int := none
  original_position : Option Int := none
  commit_id : Option String := none
  diff_hunk : Option String := none
  in_reply_to_id : Option Int := none
deriving DecidableEq

/-- Embedding of the page formatting of line-level review comments inside
`fetchPullRequestComments` (tagged `pr_line`, diff fields carried over). -/
def formatLineCommentPage (raws : List RawComment) : List Comment :=
  (raws.filter (fun c => c.user.isSome)).map (fun c =>
    { id := c.id
      user := c.user.getD defaultUser
      body := some (c.body.getD "")
      created_at := c.created_at.getD ""
      updated_at := c.updated_at.getD ""
      html_url := c.html_url
      comment_type := .pr_line
      path := c.path
      position := c.position
      original_position := c.original_position
      commit_id := c.commit_id
      diff_hunk := c.diff_hunk
      in_reply_to_id := c.in_reply_to_id })

/-- Embedding of the page formatting of issue-style comments inside
`fetchPullRequestComments` (tagged `issue`, no diff fields). -/
def formatIssueCommentPage (raws : List RawComment) : List Comment :=
  (raws.filter (fun c => c.user.isSome)).map (fun c =>
    { id := c.id
      user := c.user.getD defaultUser
      body := some (c.body.getD "")
      created_at := c.created_at.getD ""
      updated_at := c.updated_at.getD ""
      html_url := c.html_url
      comment_type := .issue })

/-- Embedding of the review-body extraction inside `fetchPullRequestComments`:
reviews whose body is neither null nor the empty string are synthesized into
comment-shaped records tagged `pr_review`, reusing the review's id, user,
submission time (as both created and updated) and URL. -/
def reviewDerivedComments (reviews : List Review) : List Comment :=
  (reviews.filter (fun r => r.body != none && r.body != some "")).map (fun r =>
    { id := r.id
      user := r.user
      body := r.body
      created_at := r.submitted_at
      updated_at := r.submitted_at
      html_url := r.html_url
      comment_type := .pr_review })

/-- Embedding of `fetchPullRequestComments` over the three collected raw
sources: line-level comment pages, issue-style comment pages, and the raw
reviews (which are first formatted exactly as `fetchPullRequestReviews`
does).  The merged list is the concatenation in source order. -/
def fetchPullRequestComments (lineRaws issueRaws : List RawComment)
    (reviewRaws : List RawReview) : List Comment :=
  formatLineCommentPage lineRaws ++ formatIssueCommentPage issueRaws ++
    reviewDerivedComments (formatReviewPage reviewRaws)

/-- A wire-format pull request item of a `GET /repos/{owner}/{repo}/pulls`
page, as far as the paginator inspects it.  `created_at` is embedded as an
integer millisecond timestamp (the source compares `new Date(...)` values,
and date parsing is monotone in the instant a string denotes). -/
structure RawPR where
  id : Int
  number : Int
  title : String
  state : String
  created_at : Int
deriving DecidableEq

/-- The creation date of the last (oldest) item of a page; only ever used on
nonempty pages. -/
def lastCreated (page : List RawPR) : Int :=
  match page.getLast? with
  | some pr => pr.created_at
  | none => 0

/-- The cutoff filter `pr => new Date(pr.created_at) >= new Date(since)`. -/
def sinceFilter (since : Int) (page : List RawPR) : List RawPR :=
  page.filter (fun pr => since ≤ pr.created_at)

/-- Embedding of the page-discovery loop of `fetchAllPullRequests` starting
at page number `p`.  `pages` is the API's per-page content.  Returns the
items pushed directly by the early-stop branch, the list of full pages
collected in `pagePromises`, and the number of page requests issued.  `fuel`
bounds the loop's iterations (the source loop is unbounded; every theorem
below supplies enough fuel for the run it describes). -/
def fetchPagesLoop (pages : Nat → List RawPR) (since : Int) :
    Nat → Nat → List RawPR × List (List RawPR) × Nat
  | _, 0 => ([], [], 0)
  | p, fuel + 1 =>
    match pages p with
    | [] => ([], [], 1)
    | x :: xs =>
      if lastCreated (x :: xs) < since then
        (sinceFilter since (x :: xs), [], 1)
      else
        let r := fetchPagesLoop pages since (p + 1) fuel
        (r.1, (x :: xs) :: r.2.1, r.2.2 + 1)

/-- Embedding of `fetchAllPullRequests(octokit, owner, repo, since)`: runs the
discovery loop from page 1, then filters every collected page by the cutoff
and appends the results after the directly-pushed items.  Returns the
collected pull requests and the number of page requests issued. -/
def fetchAllPullRequests (pages : Nat → List RawPR) (since : Int) (fuel : Nat) :
    List RawPR × Nat :=
  let r := fetchPagesLoop pages since 1 fuel
  (r.1 ++ (r.2.1.map (sinceFilter since)).flatten, r.2.2)

/-- Embedding of `Promise.all(batch.map(processFunction))`: every worker's
settled outcome is deterministic here, and the combined promise resolves to
the results in input order, or rejects when some worker rejects. -/
def promiseAll (worker : α → Except ε β) : List α → Except ε (List β)
  | [] => .ok []
  | x :: xs => do
    let r ← worker x
    let rs ← promiseAll worker xs
    return r :: rs

/-- The chunked loop of `processInBatches` for a positive batch size `b + 1`:
take one slice, run its workers, then recurse on the rest, concatenating
results in order.  An error from any chunk propagates out. -/
def runBatches (worker : α → Except ε β) (b : Nat) : List α → Except ε (List β)
  | [] => .ok []
  | x :: xs => do
    let batchResults ← promiseAll worker ((x :: xs).take (b + 1))
    let rest ← runBatches worker b ((x :: xs).drop (b + 1))
    return batchResults ++ rest
termination_by l => l.length
decreasing_by
  simp only [List.drop_succ_cons, List.length_drop, List.length_cons]
  omega

/-- Embedding of `processInBatches(items, batchSize, processFunction)`.  With
`batchSize = 0` the source's loop never advances (`i += 0`) and diverges; that
case is unreachable in the program (batch sizes are 5 and 10) and is mapped
to an empty result here, with every theorem below requiring a positive batch
size. -/
def processInBatches (items : List α) (batchSize : Nat)
    (worker : α → Except ε β) : Except ε (List β) :=
  match batchSize with
  | 0 => .ok []
  | b + 1 => runBatches worker b items

/-- The consecutive slices `items.slice(i, i + batchSize)` taken by
`processInBatches`, for batch size `b + 1`. -/
def chunksOfPos (b : Nat) : List α → List (List α)
  | [] => []
  | x :: xs => (x :: xs).take (b + 1) :: chunksOfPos b ((x :: xs).drop (b + 1))
termination_by l => l.length
decreasing_by
  simp only [List.drop_succ_cons, List.length_drop, List.length_cons]
  omega

/-- The truthiness test `!pr.merged_at` on a nullable string field: null and
the empty string are falsy. -/
def jsFalsyStr : Option String → Bool
  | none => true
  | some s => s == ""

/-- Embedding of the per-repository summary update block of `main`: the seven
`reduce` accumulations and the four classification counters, applied to one
repository's detailed PR list.  (`pr.additions || 0` is the identity on the
integer model since `0 || 0` is `0`.) -/
def updateSummary (s : Summary) (detailedPRs : List PullRequest) : Summary :=
  { s with
    total_commits := s.total_commits + (detailedPRs.map (·.commits.length)).sum
    total_comments := s.total_comments + (detailedPRs.map (·.comments.length)).sum
    total_reviews := s.total_reviews + (detailedPRs.map (·.reviews.length)).sum
    total_review_requests :=
      s.total_review_requests + (detailedPRs.map (·.review_requests.length)).sum
    total_additions := s.total_additions + (detailedPRs.map (·.additions)).sum
    total_deletions := s.total_deletions + (detailedPRs.map (·.deletions)).sum
    total_changed_files := s.total_changed_files + (detailedPRs.map (·.changed_files)).sum
    total_pull_requests := s.total_pull_requests + detailedPRs.length
    open_pull_requests :=
      s.open_pull_requests + (detailedPRs.filter (fun pr => pr.state == "open")).length
    closed_pull_requests :=
      s.closed_pull_requests +
        (detailedPRs.filter (fun pr => pr.state == "closed" && jsFalsyStr pr.merged_at)).length
    merged_pull_requests :=
      s.merged_pull_requests + (detailedPRs.filter (fun pr => pr.merged_at != none)).length }

/-- One iteration of the per-repository loop of `main`: fetch the repo's
detailed PRs (embedded as `prsOf repo.name`); a repository with zero PRs in
the window is skipped with `continue`; otherwise its entry is appended to the
repositories object and the summary counters are updated. -/
def stepRepo (prsOf : String → List PullRequest) (data : Snapshot)
    (repo : Repository) : Snapshot :=
  let detailedPRs := prsOf repo.name
  if detailedPRs.length = 0 then data
  else
    { data with
      repositories := data.repositories ++ [(repo.name, ⟨repo, detailedPRs⟩)]
      summary := updateSummary data.summary detailedPRs }

/-- The summary `main` starts from: `total_repositories` is the length of the
fetched repository list, every other counter is zero. -/
def initialSummary (totalRepos : Nat) : Summary :=
  ⟨totalRepos, 0, 0, 0, 0, 0, 0, 0, 0, 0, 0, 0⟩

/-- Embedding of the snapshot-assembly loop of `main`: fold the
per-repository step over the fetched repositories, starting from an empty
repositories object and the initial summary. -/
def buildSnapshot (org generatedAt : String) (repos : List Repository)
    (prsOf : String → List PullRequest) : Snapshot :=
  repos.foldl (stepRepo prsOf) ⟨org, generatedAt, [], initialSummary repos.length⟩

/-- C1 (counterexample): the claim's permutation clause is false.  Two
parameter objects that are equal as maps (a permutation of the same key-value
pairs, with distinct keys) but inserted in different orders serialize to
different payloads — `JSON.stringify` preserves insertion order — and hence
hash to different cache keys. -/
theorem generateCacheKey_permutation_cex :
    List.Perm [("a", JVal.jstr "1"), ("b", JVal.jstr "2")]
      [("b", JVal.jstr "2"), ("a", JVal.jstr "1")] ∧
    serializeRequest "GET" "/repos/{owner}/{repo}/pulls"
        [("a", JVal.jstr "1"), ("b", JVal.jstr "2")] ≠
      serializeRequest "GET" "/repos/{owner}/{repo}/pulls"
        [("b", JVal.jstr "2"), ("a", JVal.jstr "1")] ∧
    generateCacheKey "GET" "/repos/{owner}/{repo}/pulls"
        [("a", JVal.jstr "1"), ("b", JVal.jstr "2")] ≠
      generateCacheKey "GET" "/repos/{owner}/{repo}/pulls"
        [("b", JVal.jstr "2"), ("a", JVal.jstr "1")] := by
  refine ⟨?_, by decide, by decide⟩
  exact List.Perm.swap _ _ _

/-- C1 (amended): the cache key is a deterministic function of the tuple
(method, endpoint template, parameter object in insertion order): hashing the
same tuple twice yields the same key, and two requests differing in the
parameter object (in values or in insertion order) derive different keys. -/
theorem generateCacheKey_deterministic_injective (method url : String)
    (p q : List (String × JVal)) (hne : p ≠ q) :
    generateCacheKey method url p = generateCacheKey method url p ∧
    generateCacheKey method url p ≠ generateCacheKey method url q :=
  ⟨rfl, fun h => hne (congrArg CacheKey.params h)⟩

/-- C1 witness: changing the pagination `page` parameter changes the key. -/
theorem generateCacheKey_deterministic_injective_witness :
    ([("org", JVal.jstr "acme"), ("page", JVal.jnum 1)] :
        List (String × JVal)) ≠ [("org", JVal.jstr "acme"), ("page", JVal.jnum 2)] ∧
    generateCacheKey "GET" "/orgs/{org}/repos"
        [("org", JVal.jstr "acme"), ("page", JVal.jnum 1)] ≠
      generateCacheKey "GET" "/orgs/{org}/repos"
        [("org", JVal.jstr "acme"), ("page", JVal.jnum 2)] :=
  ⟨by decide,
    (generateCacheKey_deterministic_injective "GET" "/orgs/{org}/repos"
      [("org", JVal.jstr "acme"), ("page", JVal.jnum 1)]
      [("org", JVal.jstr "acme"), ("page", JVal.jnum 2)] (by decide)).2⟩

/-- A one-commit page used to exercise the per-commit statistics call. -/
def statsFailCommit : RawCommit :=
  { sha := "abc123"
    author := some ⟨"alice", 7, "a", "h"⟩
    committer := some ⟨"alice", 7, "a", "h"⟩
    commitAuthor := some ⟨some "Alice", some "alice@x.com", some "2025-01-01"⟩
    commitCommitter := some ⟨some "Alice", some "alice@x.com", some "2025-01-01"⟩
    message := "fix"
    html_url := "u" }

/-- C2: when the extra per-commit statistics call throws for a commit, the
`catch` around the whole loop body skips `commits.push`, so the commit is
dropped from the returned list entirely (first conjunct) — the claim's
"included with stats absent" shape arises only when the extra call succeeds
but its response carries no `stats` block (second conjunct).  No error
propagates to the enclosing PR aggregation in either case (the function
totalizes to a plain list). -/
theorem processCommitPage_dropsCommitOnFailedStats :
    processCommitPage (fun _ => .error ⟨500, "boom"⟩) [statsFailCommit] = [] ∧
    processCommitPage (fun _ => .ok none) [statsFailCommit] =
      [{ sha := "abc123"
         author := some ⟨"alice", 7, "a", "h"⟩
         committer := some ⟨"alice", 7, "a", "h"⟩
         commit :=
           { author := ⟨"Alice", "alice@x.com", "2025-01-01"⟩
             committer := ⟨"Alice", "alice@x.com", "2025-01-01"⟩
             message := "fix" }
         html_url := "u"
         stats := none }] := by
  exact ⟨rfl, rfl⟩

/-- A repository with zero PRs in the window is skipped by `continue`. -/
theorem stepRepo_skip (prsOf : String → List PullRequest) (data : Snapshot)
    (repo : Repository) (h : prsOf repo.name = []) :
    stepRepo prsOf data repo = data := by
  simp [stepRepo, h]

/-- Zero-PR repositories contribute nothing to the assembly fold. -/
theorem foldl_stepRepo_filter (prsOf : String → List PullRequest)
    (repos : List Repository) (acc : Snapshot) :
    repos.foldl (stepRepo prsOf) acc =
      (repos.filter (fun r => !(prsOf r.name).isEmpty)).foldl (stepRepo prsOf) acc := by
  induction repos generalizing acc with
  | nil => rfl
  | cons r rest ih =>
    by_cases h : prsOf r.name = []
    · simp [List.filter_cons, h, stepRepo_skip prsOf acc r h, ih]
    · simp only [List.foldl_cons, List.filter_cons]
      rw [if_pos (by simp [List.isEmpty_iff, h])]
      simp [ih]

/-- The summary update never reads nor writes `total_repositories`. -/
theorem updateSummary_setTotalRepos (s : Summary) (prs : List PullRequest) (n : Nat) :
    updateSummary { s with total_repositories := n } prs =
      { updateSummary s prs with total_repositories := n } := by
  rfl

/-- The per-repository step commutes with overwriting `total_repositories`. -/
theorem stepRepo_setTotalRepos (prsOf : String → List PullRequest) (data : Snapshot)
    (repo : Repository) (n : Nat) :
    stepRepo prsOf { data with summary := { data.summary with total_repositories := n } } repo =
      { stepRepo prsOf data repo with
        summary := { (stepRepo prsOf data repo).summary with total_repositories := n } } := by
  simp only [stepRepo]
  split
  · rfl
  · simp [updateSummary_setTotalRepos]

/-- The assembly fold commutes with overwriting `total_repositories`. -/
theorem foldl_stepRepo_setTotalRepos (prsOf : String → List PullRequest)
    (repos : List Repository) (acc : Snapshot) (n : Nat) :
    repos.foldl (stepRepo prsOf)
        { acc with summary := { acc.summary with total_repositories := n } } =
      { repos.foldl (stepRepo prsOf) acc with
        summary := { (repos.foldl (stepRepo prsOf) acc).summary
                     with total_repositories := n } } := by
  induction repos generalizing acc with
  | nil => rfl
  | cons r rest ih =>
    simp only [List.foldl_cons, stepRepo_setTotalRepos, ih]

/-- The repositories object accumulated by the fold: one entry per repository
with a nonempty PR list, in traversal order. -/
theorem foldl_stepRepo_repositories (prsOf : String → List PullRequest)
    (repos : List Repository) (acc : Snapshot) :
    (repos.foldl (stepRepo prsOf) acc).repositories =
      acc.repositories ++
        (repos.filter (fun r => !(prsOf r.name).isEmpty)).map
          (fun r => (r.name, (⟨r, prsOf r.name⟩ : RepoData))) := by
  induction repos generalizing acc with
  | nil => simp
  | cons r rest ih =>
    by_cases h : prsOf r.name = []
    · simp [List.filter_cons, h, stepRepo_skip prsOf acc r h, ih]
    · simp only [List.foldl_cons, List.filter_cons]
      rw [if_pos (by simp [List.isEmpty_iff, h])]
      simp only [List.map_cons, ih]
      have hstep : stepRepo prsOf acc r =
          { acc with
            repositories := acc.repositories ++ [(r.name, (⟨r, prsOf r.name⟩ : RepoData))]
            summary := updateSummary acc.summary (prsOf r.name) } := by
        simp [stepRepo, h]
      rw [hstep]
      simp

/-- A concrete repository used in snapshot-assembly scenarios. -/
def widgetsRepo : Repository :=
  { id := 1
    name := "widgets"
    full_name := "acme/widgets"
    html_url := "https://example.invalid/acme/widgets"
    description := none
    fork := false
    created_at := "2024-01-01T00:00:00Z"
    updated_at := "2025-01-01T00:00:00Z"
    pushed_at := "2025-01-01T00:00:00Z"
    homepage := none
    size := 10
    stargazers_count := 0
    watchers_count := 0
    language := some "TypeScript"
    forks_count := 0
    archived := false
    disabled := false
    open_issues_count := 0
    license := none
    topics := []
    visibility := "private"
    default_branch := "main"
    pull_requests := [] }

/-- C3 (counterexample): a repository whose PR list within the window is
empty is not recorded in the snapshot's repositories mapping at all — the
loop `continue`s before inserting it — although it is counted by the
repository tally (set up front from the fetched repository list). -/
theorem buildSnapshot_zeroPR_cex :
    (buildSnapshot "acme" "2025-01-02T00:00:00Z" [widgetsRepo] (fun _ => [])).repositories
        = [] ∧
    (buildSnapshot "acme" "2025-01-02T00:00:00Z" [widgetsRepo]
        (fun _ => [])).summary.total_repositories = 1 := by
  exact ⟨rfl, rfl⟩

/-- C3 (amended): a repository with an empty in-window PR list is omitted
from the snapshot's repositories mapping entirely (the mapping holds exactly
the nonempty-PR repositories, in order), and the only summary counter such a
repository affects is the repository tally: every other counter equals the
one obtained from the nonempty-PR repositories alone, while
`total_repositories` is the length of the full fetched repository list. -/
theorem buildSnapshot_zeroPRRepos (org gen : String) (repos : List Repository)
    (prsOf : String → List PullRequest) :
    (buildSnapshot org gen repos prsOf).repositories =
      (repos.filter (fun r => !(prsOf r.name).isEmpty)).map
        (fun r => (r.name, (⟨r, prsOf r.name⟩ : RepoData))) ∧
    (buildSnapshot org gen repos prsOf).summary =
      { (buildSnapshot org gen (repos.filter (fun r => !(prsOf r.name).isEmpty))
          prsOf).summary with total_repositories := repos.length } := by
  constructor
  · simpa using foldl_stepRepo_repositories prsOf repos
      ⟨org, gen, [], initialSummary repos.length⟩
  · have hinit :
        (⟨org, gen, [], initialSummary repos.length⟩ : Snapshot) =
          { (⟨org, gen, [],
              initialSummary (repos.filter (fun r => !(prsOf r.name).isEmpty)).length⟩ :
                Snapshot) with
            summary := { (initialSummary
                (repos.filter (fun r => !(prsOf r.name).isEmpty)).length)
              with total_repositories := repos.length } } := rfl
    show (repos.foldl (stepRepo prsOf) _).summary = _
    rw [hinit, foldl_stepRepo_setTotalRepos,
      foldl_stepRepo_filter prsOf repos]
    rfl

/-- C4: with the cache missing (so every attempt reaches the network) and the
live call failing identically on every attempt: a primary rate-limit error
(HTTP 403 whose message includes the rate-limit indicator) is retried after
waits of exactly 30000, 60000 and 120000 ms and then fails terminally with
the retries-exhausted error carrying the original message, after 4 live
attempts; a quota-exhaustion error (message includes the quota indicator, and
the primary branch did not match) is retried after waits of exactly 60000,
120000 and 240000 ms with the same cap; any other error is rethrown
immediately with no wait after a single attempt. -/
theorem cachedRequest_backoffSchedule (method url : String) (ttlDays : Int)
    (cache : Option CacheFile) (now : Int) (e : ApiError)
    (hmiss : isHit (getCachedData cache ttlDays false now) = false) :
    (e.status = 403 → strContains e.message rateLimitIndicator = true →
      cachedRequest method url ttlDays 0 false cache now (fun _ => .error e) =
        { result := .error (.retriesExhausted (retriesMsg method url e.message))
          waits := [30000, 60000, 120000], liveCalls := 4 }) ∧
    ((decide (e.status = 403) && strContains e.message rateLimitIndicator) = false →
      e.message ≠ "" → strContains e.message quotaIndicator = true →
      cachedRequest method url ttlDays 0 false cache now (fun _ => .error e) =
        { result := .error (.retriesExhausted (retriesMsg method url e.message))
          waits := [60000, 120000, 240000], liveCalls := 4 }) ∧
    ((decide (e.status = 403) && strContains e.message rateLimitIndicator) = false →
      (e.message != "" && strContains e.message quotaIndicator) = false →
      cachedRequest method url ttlDays 0 false cache now (fun _ => .error e) =
        { result := .error (.api e), waits := [], liveCalls := 1 }) := by
  refine ⟨fun h1 h2 => ?_, fun h1 h2 h3 => ?_, fun h1 h2 => ?_⟩
  · simp [cachedRequest, cachedRequestGo, hmiss, h1, h2]
  · simp [cachedRequest, cachedRequestGo, hmiss, h1, h2, h3]
  · simp [cachedRequest, cachedRequestGo, hmiss, h1, h2]

/-- C4 witness: concrete runs of all three retry paths against an always-miss
cache — a 403 rate-limit error, a quota-exhaustion error, and a plain server
error. -/
theorem cachedRequest_backoffSchedule_witness :
    isHit (getCachedData none 7 false 0) = false ∧
    cachedRequest "GET" "/orgs/{org}/repos" 7 0 false none 0
        (fun _ => .error ⟨403, "API rate limit exceeded for installation"⟩) =
      { result := .error (.retriesExhausted (retriesMsg "GET" "/orgs/{org}/repos"
          "API rate limit exceeded for installation"))
        waits := [30000, 60000, 120000], liveCalls := 4 } ∧
    cachedRequest "GET" "/orgs/{org}/repos" 7 0 false none 0
        (fun _ => .error ⟨403, "Request quota exhausted for endpoint"⟩) =
      { result := .error (.retriesExhausted (retriesMsg "GET" "/orgs/{org}/repos"
          "Request quota exhausted for endpoint"))
        waits := [60000, 120000, 240000], liveCalls := 4 } ∧
    cachedRequest "GET" "/orgs/{org}/repos" 7 0 false none 0
        (fun _ => .error ⟨500, "internal error"⟩) =
      { result := .error (.api ⟨500, "internal error"⟩), waits := [], liveCalls := 1 } :=
  ⟨rfl,
    (cachedRequest_backoffSchedule "GET" "/orgs/{org}/repos" 7 none 0
      ⟨403, "API rate limit exceeded for installation"⟩ rfl).1 rfl (by decide),
    (cachedRequest_backoffSchedule "GET" "/orgs/{org}/repos" 7 none 0
      ⟨403, "Request quota exhausted for endpoint"⟩ rfl).2.1 (by decide) (by decide)
      (by decide),
    (cachedRequest_backoffSchedule "GET" "/orgs/{org}/repos" 7 none 0
      ⟨500, "internal error"⟩ rfl).2.2 (by decide) (by decide)⟩

/-- C5 (counterexample): the claim fails for an entry whose stored body
parses to a falsy value.  The JSON text `null` is a well-formed body; an
entry holding it, written at time 0 and looked up at time 0 (well within a
7-day TTL), is not served: outside forced mode the client issues a live call
(`liveCalls = 1`, returning the live value), and in forced mode the request
fails with the forced-miss error even though the entry exists. -/
theorem cacheLookup_contract_cex :
    (0 : Int) - 0 ≤ 7 * msPerDay ∧
    cachedRequest "GET" "/orgs/{org}/repos" 7 0 false
        (some ⟨0, some .jnull⟩) 0 (fun _ => .ok (.jobj [])) =
      { result := .ok (.jobj []), waits := [], liveCalls := 1 } ∧
    cachedRequest "GET" "/orgs/{org}/repos" 7 0 true
        (some ⟨0, some .jnull⟩) 0 (fun _ => .ok (.jobj [])) =
      { result := .error (.forcedMiss "GET" "/orgs/{org}/repos")
        waits := [], liveCalls := 0 } := by
  exact ⟨by decide, rfl, rfl⟩

/-- C5 (amended): for an entry whose stored body parses to a truthy value:
outside forced mode it is a hit (the parsed value is returned with no live
call) for every request up to and including `T + ttlDays` days after its
write time `T`, and a miss past that bound (the lookup returns nothing and,
when the live call succeeds, its value is returned after exactly one live
call); in forced mode the entry is served regardless of TTL; and in forced
mode with no entry at all, the request fails with the forced-miss error and
no live call is made. -/
theorem cacheLookup_contract (method url : String) (ttlDays mtime now : Int)
    (v : JsonVal) (live : Nat → Except ApiError JsonVal)
    (htruthy : truthy v = true) :
    (now - mtime ≤ ttlDays * msPerDay →
      cachedRequest method url ttlDays 0 false (some ⟨mtime, some v⟩) now live =
        { result := .ok v, waits := [], liveCalls := 0 }) ∧
    (ttlDays * msPerDay < now - mtime →
      getCachedData (some ⟨mtime, some v⟩) ttlDays false now = none ∧
      ∀ w, live 0 = .ok w →
        cachedRequest method url ttlDays 0 false (some ⟨mtime, some v⟩) now live =
          { result := .ok w, waits := [], liveCalls := 1 }) ∧
    (cachedRequest method url ttlDays 0 true (some ⟨mtime, some v⟩) now live =
      { result := .ok v, waits := [], liveCalls := 0 }) ∧
    (cachedRequest method url ttlDays 0 true none now live =
      { result := .error (.forcedMiss method url), waits := [], liveCalls := 0 }) := by
  refine ⟨fun h => ?_, fun h => ?_, ?_, ?_⟩
  · have hget : getCachedData (some ⟨mtime, some v⟩) ttlDays false now = some v := by
      simp [getCachedData, h]
    simp [cachedRequest, cachedRequestGo, hget, isHit, htruthy]
  · have hc : ¬ (now - mtime ≤ ttlDays * msPerDay) := by omega
    have hget : getCachedData (some ⟨mtime, some v⟩) ttlDays false now = none := by
      simp [getCachedData, hc]
    refine ⟨hget, fun w hw => ?_⟩
    simp [cachedRequest, cachedRequestGo, hget, isHit, hw]
  · have hget : getCachedData (some ⟨mtime, some v⟩) ttlDays true now = some v := by
      simp [getCachedData]
    simp [cachedRequest, cachedRequestGo, hget, isHit, htruthy]
  · simp [cachedRequest, cachedRequestGo, getCachedData, isHit]

/-- C5 witness: a truthy entry written at time 0 with a 3-day TTL is a hit at
exactly the TTL boundary and a miss one millisecond later; forced mode serves
it long past the TTL; forced mode without an entry fails. -/
theorem cacheLookup_contract_witness :
    truthy (.jobj [("ok", .jbool true)]) = true ∧
    cachedRequest "GET" "/repos/{owner}/{repo}/pulls" 3 0 false
        (some ⟨0, some (.jobj [("ok", .jbool true)])⟩) (3 * msPerDay)
        (fun _ => .ok .jnull) =
      { result := .ok (.jobj [("ok", .jbool true)]), waits := [], liveCalls := 0 } ∧
    cachedRequest "GET" "/repos/{owner}/{repo}/pulls" 3 0 false
        (some ⟨0, some (.jobj [("ok", .jbool true)])⟩) (3 * msPerDay + 1)
        (fun _ => .ok .jnull) =
      { result := .ok .jnull, waits := [], liveCalls := 1 } ∧
    cachedRequest "GET" "/repos/{owner}/{repo}/pulls" 3 0 true
        (some ⟨0, some (.jobj [("ok", .jbool true)])⟩) (100 * msPerDay)
        (fun _ => .ok .jnull) =
      { result := .ok (.jobj [("ok", .jbool true)]), waits := [], liveCalls := 0 } ∧
    cachedRequest "GET" "/repos/{owner}/{repo}/pulls" 3 0 true none (100 * msPerDay)
        (fun _ => .ok .jnull) =
      { result := .error (.forcedMiss "GET" "/repos/{owner}/{repo}/pulls")
        waits := [], liveCalls := 0 } :=
  ⟨rfl,
    (cacheLookup_contract "GET" "/repos/{owner}/{repo}/pulls" 3 0 (3 * msPerDay)
      (.jobj [("ok", .jbool true)]) (fun _ => .ok .jnull) rfl).1 (by decide),
    ((cacheLookup_contract "GET" "/repos/{owner}/{repo}/pulls" 3 0 (3 * msPerDay + 1)
      (.jobj [("ok", .jbool true)]) (fun _ => .ok .jnull) rfl).2.1 (by decide)).2
      .jnull rfl,
    (cacheLookup_contract "GET" "/repos/{owner}/{repo}/pulls" 3 0 (100 * msPerDay)
      (.jobj [("ok", .jbool true)]) (fun _ => .ok .jnull) rfl).2.2.1,
    (cacheLookup_contract "GET" "/repos/{owner}/{repo}/pulls" 3 0 (100 * msPerDay)
      (.jobj [("ok", .jbool true)]) (fun _ => .ok .jnull) rfl).2.2.2⟩

/-- A cache entry whose body parses to a falsy value never passes the
truthiness hit test, in any mode and at any time. -/
theorem isHit_falsyEntry (ttlDays mtime now : Int) (force : Bool) (v : JsonVal)
    (hfalsy : truthy v = false) :
    isHit (getCachedData (some ⟨mtime, some v⟩) ttlDays force now) = false := by
  simp only [getCachedData]
  split_ifs <;> simp [isHit, hfalsy]

/-- A request against a falsy-parsing cache entry runs exactly as the same
request against no cache entry at all, at every retry depth. -/
theorem cachedRequestGo_falsyEntry (method url : String) (ttlDays mtime now : Int)
    (force : Bool) (v : JsonVal) (live : Nat → Except ApiError JsonVal)
    (hfalsy : truthy v = false) :
    ∀ fuel rc,
      cachedRequestGo method url ttlDays force (some ⟨mtime, some v⟩) now live rc fuel =
        cachedRequestGo method url ttlDays force none now live rc fuel := by
  intro fuel
  induction fuel with
  | zero => intro rc; rfl
  | succ n ih =>
    intro rc
    have h2 : isHit (getCachedData none ttlDays force now) = false := by
      cases force <;> rfl
    have hA : ¬ (isHit (getCachedData (some ⟨mtime, some v⟩) ttlDays force now) = true) := by
      rw [isHit_falsyEntry ttlDays mtime now force v hfalsy]
      exact Bool.false_ne_true
    have hB : ¬ (isHit (getCachedData none ttlDays force now) = true) := by
      rw [h2]
      exact Bool.false_ne_true
    simp only [cachedRequestGo]
    rw [if_neg hA, if_neg hB]
    cases force
    case true => rfl
    case false =>
      cases hl : live rc with
      | ok w => rfl
      | error e =>
        dsimp only
        split_ifs <;> first
          | rfl
          | simp only [ih]

/-- Whenever the cache does not hit and forced mode is off, at least one live
API call is issued. -/
theorem cachedRequestGo_liveCalls_pos (method url : String) (ttlDays : Int)
    (cache : Option CacheFile) (now : Int) (live : Nat → Except ApiError JsonVal)
    (fuel rc : Nat)
    (hmiss : isHit (getCachedData cache ttlDays false now) = false) :
    1 ≤ (cachedRequestGo method url ttlDays false cache now live rc
          (fuel + 1)).liveCalls := by
  simp only [cachedRequestGo]
  rw [if_neg (by rw [hmiss]; exact Bool.false_ne_true)]
  rw [if_neg Bool.false_ne_true]
  cases hl : live rc with
  | ok w => exact Nat.le_refl 1
  | error e =>
    dsimp only
    split_ifs <;> dsimp only <;> omega

/-- Whenever the cache does not hit in forced mode, the request fails with
the forced-miss error without any live call. -/
theorem cachedRequestGo_forcedMiss (method url : String) (ttlDays : Int)
    (cache : Option CacheFile) (now : Int) (live : Nat → Except ApiError JsonVal)
    (fuel rc : Nat)
    (hmiss : isHit (getCachedData cache ttlDays true now) = false) :
    cachedRequestGo method url ttlDays true cache now live rc (fuel + 1) =
      { result := .error (.forcedMiss method url), waits := [], liveCalls := 0 } := by
  simp only [cachedRequestGo]
  rw [if_neg (by rw [hmiss]; exact Bool.false_ne_true)]
  rfl

/-- C10: a cached entry whose stored JSON body parses to a falsy value
(`null`, `false`, `0`, or the empty string) is never served as a hit — the
hit test is a truthiness check on the parsed value.  In either mode the
request behaves exactly as if no cache file existed; in normal mode this
means a live API call is issued, and in forced mode the request fails with
the forced-miss error, even though a valid in-TTL cache file exists. -/
theorem falsyCacheEntry_neverHit (method url : String) (ttlDays mtime now : Int)
    (v : JsonVal) (live : Nat → Except ApiError JsonVal)
    (hfalsy : truthy v = false) (httl : now - mtime ≤ ttlDays * msPerDay) :
    (∀ force,
      cachedRequest method url ttlDays 0 force (some ⟨mtime, some v⟩) now live =
        cachedRequest method url ttlDays 0 force none now live) ∧
    1 ≤ (cachedRequest method url ttlDays 0 false (some ⟨mtime, some v⟩)
          now live).liveCalls ∧
    (cachedRequest method url ttlDays 0 true (some ⟨mtime, some v⟩) now live =
      { result := .error (.forcedMiss method url), waits := [], liveCalls := 0 }) := by
  have h1 : ∀ force,
      cachedRequest method url ttlDays 0 force (some ⟨mtime, some v⟩) now live =
        cachedRequest method url ttlDays 0 force none now live := fun force => by
    simpa [cachedRequest] using
      cachedRequestGo_falsyEntry method url ttlDays mtime now force v live hfalsy 4 0
  refine ⟨h1, ?_, ?_⟩
  · rw [h1 false]
    exact cachedRequestGo_liveCalls_pos method url ttlDays none now live 3 0 rfl
  · exact cachedRequestGo_forcedMiss method url ttlDays (some ⟨mtime, some v⟩) now live 3 0
      (isHit_falsyEntry ttlDays mtime now true v hfalsy)

/-- C10 witness: an entry holding the body `0`, written at time 0 with a
7-day TTL and looked up at time 0, triggers a live call in normal mode and
the forced-miss failure in forced mode. -/
theorem falsyCacheEntry_neverHit_witness :
    truthy (.jnum 0) = false ∧
    (0 : Int) - 0 ≤ 7 * msPerDay ∧
    1 ≤ (cachedRequest "GET" "/orgs/{org}/repos" 7 0 false
          (some ⟨0, some (.jnum 0)⟩) 0 (fun _ => .ok (.jarr []))).liveCalls ∧
    (cachedRequest "GET" "/orgs/{org}/repos" 7 0 true
        (some ⟨0, some (.jnum 0)⟩) 0 (fun _ => .ok (.jarr [])) =
      { result := .error (.forcedMiss "GET" "/orgs/{org}/repos")
        waits := [], liveCalls := 0 }) :=
  ⟨rfl, by decide,
    (falsyCacheEntry_neverHit "GET" "/orgs/{org}/repos" 7 0 0 (.jnum 0)
      (fun _ => .ok (.jarr [])) rfl (by decide)).2.1,
    (falsyCacheEntry_neverHit "GET" "/orgs/{org}/repos" 7 0 0 (.jnum 0)
      (fun _ => .ok (.jarr [])) rfl (by decide)).2.2⟩

/-- Characterization of the page-discovery loop: if the `m` pages starting at
`p` are nonempty and entirely at/after the cutoff on their last item, and
page `p + m` is nonempty with its last (oldest) item strictly before the
cutoff, then the loop collects pages `p .. p+m-1` whole, pushes the filtered
stop page directly, and issues exactly `m + 1` page requests. -/
theorem fetchPagesLoop_earlyStop (pages : Nat → List RawPR) (since : Int) :
    ∀ (m p fuel : Nat),
      (∀ j, p ≤ j → j < p + m → pages j ≠ [] ∧ since ≤ lastCreated (pages j)) →
      pages (p + m) ≠ [] →
      lastCreated (pages (p + m)) < since →
      m + 1 ≤ fuel →
      fetchPagesLoop pages since p fuel =
        (sinceFilter since (pages (p + m)),
          (List.range m).map (fun i => pages (p + i)),
          m + 1) := by
  intro m
  induction m with
  | zero =>
    intro p fuel hcont hne hstop hfuel
    obtain ⟨f, rfl⟩ : ∃ f, fuel = f + 1 := ⟨fuel - 1, by omega⟩
    rw [Nat.add_zero] at hne hstop
    cases hp : pages p with
    | nil => exact absurd hp hne
    | cons x xs =>
      rw [hp] at hstop
      simp only [fetchPagesLoop, hp, if_pos hstop, Nat.add_zero, List.range_zero,
        List.map_nil]
  | succ k ih =>
    intro p fuel hcont hne hstop hfuel
    obtain ⟨f, rfl⟩ : ∃ f, fuel = f + 1 := ⟨fuel - 1, by omega⟩
    obtain ⟨hpne, hplast⟩ := hcont p (Nat.le_refl p) (by omega)
    cases hp : pages p with
    | nil => exact absurd hp hpne
    | cons x xs =>
      rw [hp] at hplast
      have hrec := ih (p + 1) f
        (fun j h1 h2 => hcont j (by omega) (by omega))
        (by rw [show p + 1 + k = p + (k + 1) by omega]; exact hne)
        (by rw [show p + 1 + k = p + (k + 1) by omega]; exact hstop)
        (by omega)
      simp only [fetchPagesLoop, hp, if_neg (not_lt.mpr hplast), hrec]
      refine congrArg₂ Prod.mk ?_ (congrArg₂ Prod.mk ?_ rfl)
      · rw [show p + 1 + k = p + (k + 1) by omega]
      · rw [List.range_succ_eq_map, List.map_cons, List.map_map, Nat.add_zero, ← hp]
        refine congrArg₂ List.cons rfl (List.map_congr_left ?_)
        intro i _
        simp only [Function.comp_apply]
        congr 1
        omega

/-- C6: given PR pages sorted newest-created-first and a cutoff `since`, when
page `k` is the first page whose last (oldest) item was created strictly
before the cutoff (pages 1..k-1 being nonempty with their last items at/after
the cutoff), the paginator's result contains exactly the at/after-cutoff
items of page `k` (its direct contribution) together with the filtered
contents of the earlier pages, and it issues exactly `k` page requests — no
page deeper than `k` is ever requested. -/
theorem fetchAllPullRequests_earlyStop (pages : Nat → List RawPR) (since : Int)
    (k fuel : Nat) (hk : 1 ≤ k) (hfuel : k ≤ fuel)
    (hcont : ∀ j, 1 ≤ j → j < k → pages j ≠ [] ∧ since ≤ lastCreated (pages j))
    (hne : pages k ≠ []) (hstop : lastCreated (pages k) < since) :
    fetchAllPullRequests pages since fuel =
      (sinceFilter since (pages k) ++
        ((List.range (k - 1)).map (fun i => sinceFilter since (pages (1 + i)))).flatten,
       k) := by
  have hk1 : 1 + (k - 1) = k := by omega
  have hloop := fetchPagesLoop_earlyStop pages since (k - 1) 1 fuel
    (fun j h1 h2 => hcont j h1 (by omega))
    (by rw [hk1]; exact hne)
    (by rw [hk1]; exact hstop)
    (by omega)
  simp only [fetchAllPullRequests, hloop, List.map_map]
  refine congrArg₂ Prod.mk (congrArg₂ HAppend.hAppend ?_ rfl) (by omega)
  rw [hk1]

/-- Concrete PR pages, sorted newest-created-first: page 1 holds creations at
days 10 and 5, page 2 at days 4 and 1, deeper pages are empty. -/
def cexPages : Nat → List RawPR := fun j =>
  if j = 1 then
    [⟨11, 11, "newest", "open", 10⟩, ⟨12, 12, "older", "closed", 5⟩]
  else if j = 2 then
    [⟨13, 13, "inside", "open", 4⟩, ⟨14, 14, "outside", "closed", 1⟩]
  else []

/-- C6 witness: with cutoff 3 the oldest item of page 2 (day 1) is before the
cutoff, so the run returns page 2 filtered to its single at/after-cutoff item
plus all of page 1, and requests exactly 2 pages. -/
theorem fetchAllPullRequests_earlyStop_witness :
    fetchAllPullRequests cexPages 3 2 =
      ([⟨13, 13, "inside", "open", 4⟩,
        ⟨11, 11, "newest", "open", 10⟩, ⟨12, 12, "older", "closed", 5⟩], 2) := by
  have h := fetchAllPullRequests_earlyStop cexPages 3 2 2 (by decide) (by decide)
    (fun j h1 h2 => by
      have hj : j = 1 := by omega
      subst hj
      exact ⟨by decide, by decide⟩)
    (by decide) (by decide)
  rw [h]
  decide

/-- The slices taken by `processInBatches`, for an arbitrary batch size
(partial chunks arise only at the end; batch size 0 is the divergent case,
mapped to no chunks and excluded by hypothesis in every theorem below). -/
def chunksOf (batchSize : Nat) (l : List α) : List (List α) :=
  match batchSize with
  | 0 => []
  | b + 1 => chunksOfPos b l

/-- Sequential execution of one chunk after another, awaiting each chunk's
`Promise.all` before starting the next; results are concatenated in order. -/
def runChunkList (worker : α → Except ε β) : List (List α) → Except ε (List β)
  | [] => .ok []
  | c :: cs => do
    let rs ← promiseAll worker c
    let rest ← runChunkList worker cs
    return rs ++ rest

/-- The batch loop is exactly chunk-by-chunk execution of the slices. -/
theorem runBatches_eq_runChunkList (worker : α → Except ε β) (b : Nat) :
    ∀ l : List α, runBatches worker b l = runChunkList worker (chunksOfPos b l) := by
  intro l
  generalize hn : l.length = n
  induction n using Nat.strong_induction_on generalizing l with
  | _ n ih =>
    cases l with
    | nil => rw [runBatches, chunksOfPos]; rfl
    | cons x xs =>
      rw [runBatches, chunksOfPos]
      subst hn
      rw [ih ((x :: xs).drop (b + 1)).length (by simp; omega) _ rfl]
      rfl

/-- The chunks concatenate back to the original list. -/
theorem chunksOfPos_flatten (b : Nat) :
    ∀ l : List α, (chunksOfPos b l).flatten = l := by
  intro l
  generalize hn : l.length = n
  induction n using Nat.strong_induction_on generalizing l with
  | _ n ih =>
    cases l with
    | nil => rw [chunksOfPos]; rfl
    | cons x xs =>
      rw [chunksOfPos]
      subst hn
      rw [List.flatten_cons,
        ih ((x :: xs).drop (b + 1)).length (by simp; omega) _ rfl]
      exact List.take_append_drop (b + 1) (x :: xs)

/-- Chunks are nonempty and no longer than the batch size. -/
theorem chunksOfPos_bounds (b : Nat) :
    ∀ l : List α, ∀ c ∈ chunksOfPos b l, c ≠ [] ∧ c.length ≤ b + 1 := by
  intro l
  generalize hn : l.length = n
  induction n using Nat.strong_induction_on generalizing l with
  | _ n ih =>
    cases l with
    | nil => rw [chunksOfPos]; intro c hc; exact absurd hc (List.not_mem_nil c)
    | cons x xs =>
      rw [chunksOfPos]
      subst hn
      intro c hc
      rcases List.mem_cons.mp hc with h | h
      · subst h
        refine ⟨by simp, by simp⟩
      · exact ih ((x :: xs).drop (b + 1)).length (by simp; omega) _ rfl c h

/-- The chunk list is empty exactly for the empty input. -/
theorem chunksOfPos_eq_nil_iff (b : Nat) (l : List α) :
    chunksOfPos b l = [] ↔ l = [] := by
  cases l with
  | nil => rw [chunksOfPos]; simp
  | cons x xs => rw [chunksOfPos]; simp

/-- Every chunk except possibly the last has length exactly the batch size. -/
theorem chunksOfPos_dropLast_length (b : Nat) :
    ∀ l : List α, ∀ c ∈ (chunksOfPos b l).dropLast, c.length = b + 1 := by
  intro l
  generalize hn : l.length = n
  induction n using Nat.strong_induction_on generalizing l with
  | _ n ih =>
    cases l with
    | nil => rw [chunksOfPos]; intro c hc; simp at hc
    | cons x xs =>
      rw [chunksOfPos]
      subst hn
      intro c hc
      cases hrest : chunksOfPos b ((x :: xs).drop (b + 1)) with
      | nil => rw [hrest] at hc; simp at hc
      | cons c0 cs =>
        rw [hrest, List.dropLast_cons_of_ne_nil (by simp)] at hc
        rcases List.mem_cons.mp hc with h | h
        · subst h
          have hne : (x :: xs).drop (b + 1) ≠ [] := by
            intro habs
            rw [habs] at hrest
            rw [(chunksOfPos_eq_nil_iff b []).mpr rfl] at hrest
            exact List.cons_ne_nil c0 cs hrest.symm
          have hlen : b + 1 < (x :: xs).length := by
            by_contra hle
            exact hne (List.drop_eq_nil_of_le (by omega))
          simp only [List.length_take, List.length_cons] at hlen ⊢
          omega
        · exact ih ((x :: xs).drop (b + 1)).length (by simp; omega) _ rfl c
            (by rw [hrest]; exact h)

/-- When every worker succeeds, `Promise.all` resolves to the per-item
results in input order. -/
theorem promiseAll_ok (worker : α → Except ε β) (f : α → β) :
    ∀ l : List α, (∀ x ∈ l, worker x = .ok (f x)) →
      promiseAll worker l = .ok (l.map f) := by
  intro l
  induction l with
  | nil => intro _; rfl
  | cons x xs ih =>
    intro h
    rw [promiseAll, h x (List.mem_cons_self x xs),
      ih (fun y hy => h y (List.mem_cons_of_mem x hy))]
    rfl

/-- When some worker in the chunk rejects, `Promise.all` rejects. -/
theorem promiseAll_error (worker : α → Except ε β) :
    ∀ (l : List α) (x : α), x ∈ l → (∀ ex, worker x = .error ex → 
      ∃ e, promiseAll worker l = .error e) := by
  intro l
  induction l with
  | nil => intro x hx; exact absurd hx (List.not_mem_nil x)
  | cons y ys ih =>
    intro x hx ex hex
    rcases List.mem_cons.mp hx with h | h
    · subst h
      exact ⟨ex, by rw [promiseAll, hex]; rfl⟩
    · cases hy : worker y with
      | error ey => exact ⟨ey, by rw [promiseAll, hy]; rfl⟩
      | ok w =>
        obtain ⟨e, he⟩ := ih x h ex hex
        exact ⟨e, by rw [promiseAll, hy, he]; rfl⟩

/-- When every worker succeeds, the batch loop returns the per-item results
in input order. -/
theorem runBatches_ok (worker : α → Except ε β) (f : α → β) (b : Nat) :
    ∀ l : List α, (∀ x ∈ l, worker x = .ok (f x)) →
      runBatches worker b l = .ok (l.map f) := by
  intro l
  generalize hn : l.length = n
  induction n using Nat.strong_induction_on generalizing l with
  | _ n ih =>
    cases l with
    | nil => intro _; rw [runBatches]; rfl
    | cons x xs =>
      intro h
      subst hn
      rw [runBatches,
        promiseAll_ok worker f _ (fun y hy => h y (List.mem_of_mem_take hy)),
        ih ((x :: xs).drop (b + 1)).length (by simp; omega) _ rfl
          (fun y hy => h y (List.mem_of_mem_drop hy))]
      show Except.ok _ = _
      rw [← List.map_append, List.take_append_drop]

/-- A single worker failure anywhere makes the whole batch run fail. -/
theorem runBatches_error (worker : α → Except ε β) (b : Nat) :
    ∀ (l : List α) (x : α), x ∈ l → ∀ ex, worker x = .error ex →
      ∃ e, runBatches worker b l = .error e := by
  intro l
  generalize hn : l.length = n
  induction n using Nat.strong_induction_on generalizing l with
  | _ n ih =>
    cases l with
    | nil => intro x hx; exact absurd hx (List.not_mem_nil x)
    | cons y ys =>
      intro x hx ex hex
      subst hn
      have hsplit : x ∈ (y :: ys).take (b + 1) ++ (y :: ys).drop (b + 1) := by
        rw [List.take_append_drop]; exact hx
      rcases List.mem_append.mp hsplit with h | h
      · obtain ⟨e, he⟩ := promiseAll_error worker _ x h ex hex
        exact ⟨e, by rw [runBatches, he]; rfl⟩
      · cases hp : promiseAll worker ((y :: ys).take (b + 1)) with
        | error e => exact ⟨e, by rw [runBatches, hp]; rfl⟩
        | ok ws =>
          obtain ⟨e, he⟩ := ih ((y :: ys).drop (b + 1)).length (by simp; omega) _ rfl
            x h ex hex
          exact ⟨e, by rw [runBatches, hp, he]; rfl⟩

/-- C7 (amended only in presupposing a positive concurrency limit): the batch
scheduler executes exactly the consecutive slices of size `batchSize` (the
last slice possibly shorter), chunk after chunk; when every worker succeeds
the i-th result is the worker's result for the i-th input (the output is the
input list mapped, independent of completion order, which `Promise.all`
erases); and a single worker failure anywhere fails the entire run. -/
theorem processInBatches_spec (items : List α) (batchSize : Nat)
    (worker : α → Except ε β) (f : α → β) (hpos : 0 < batchSize) :
    processInBatches items batchSize worker =
        runChunkList worker (chunksOf batchSize items) ∧
    (chunksOf batchSize items).flatten = items ∧
    (∀ c ∈ (chunksOf batchSize items).dropLast, c.length = batchSize) ∧
    (∀ c ∈ chunksOf batchSize items, c ≠ [] ∧ c.length ≤ batchSize) ∧
    ((∀ x ∈ items, worker x = .ok (f x)) →
      processInBatches items batchSize worker = .ok (items.map f)) ∧
    (∀ x ∈ items, ∀ ex, worker x = .error ex →
      ∃ e, processInBatches items batchSize worker = .error e) := by
  obtain ⟨b, rfl⟩ : ∃ b, batchSize = b + 1 := ⟨batchSize - 1, by omega⟩
  refine ⟨runBatches_eq_runChunkList worker b items,
    chunksOfPos_flatten b items,
    chunksOfPos_dropLast_length b items,
    chunksOfPos_bounds b items,
    runBatches_ok worker f b items,
    runBatches_error worker b items⟩

/-- C7 witness: five items with concurrency limit 2 are sliced as
`[[10,20],[30,40],[50]]`; an all-success run maps every item in order, and a
run whose worker rejects on the middle item fails as a whole. -/
theorem processInBatches_spec_witness :
    chunksOf 2 [10, 20, 30, 40, 50] = [[10, 20], [30, 40], [50]] ∧
    processInBatches [10, 20, 30, 40, 50] 2
        (fun x => (.ok (x + 1) : Except String Nat)) = .ok [11, 21, 31, 41, 51] ∧
    (∃ e, processInBatches [10, 20, 30, 40, 50] 2
        (fun x => if x = 30 then (.error "boom" : Except String Nat) else .ok (x + 1)) =
          .error e) :=
  ⟨by simp [chunksOf, chunksOfPos],
    (processInBatches_spec [10, 20, 30, 40, 50] 2
        (fun x => (.ok (x + 1) : Except String Nat)) (fun x => x + 1)
        (by decide)).2.2.2.2.1 (fun x _ => rfl),
    (processInBatches_spec [10, 20, 30, 40, 50] 2
        (fun x => if x = 30 then (.error "boom" : Except String Nat) else .ok (x + 1))
        (fun x => x + 1) (by decide)).2.2.2.2.2 30 (by decide) "boom" (by rfl)⟩

/-- The review-derived comments, computed from the raw reviews: the user
filter of the review formatter and the nonempty-body filter compose. -/
theorem reviewDerived_formatReviewPage (r : List RawReview) :
    reviewDerivedComments (formatReviewPage r) =
      (r.filter (fun rv => (rv.body != none && rv.body != some "") && rv.user.isSome)).map
        (fun rv =>
          { id := rv.id
            user := rv.user.getD defaultUser
            body := rv.body
            created_at := rv.submitted_at.getD ""
            updated_at := rv.submitted_at.getD ""
            html_url := rv.html_url
            comment_type := .pr_review }) := by
  unfold reviewDerivedComments formatReviewPage
  rw [List.filter_map, List.filter_filter, List.map_map]
  rfl

/-- Every merged comment traces back to one of the three raw sources, with
its id copied from that source's item and its tag naming the source. -/
theorem fetchPullRequestComments_source (lineRaws issueRaws : List RawComment)
    (reviewRaws : List RawReview) :
    ∀ c ∈ fetchPullRequestComments lineRaws issueRaws reviewRaws,
      ((∃ raw ∈ lineRaws, c.id = raw.id) ∧ c.comment_type = .pr_line) ∨
      ((∃ raw ∈ issueRaws, c.id = raw.id) ∧ c.comment_type = .issue) ∨
      ((∃ rv ∈ reviewRaws, c.id = rv.id) ∧ c.comment_type = .pr_review) := by
  intro c hc
  rw [fetchPullRequestComments, reviewDerived_formatReviewPage] at hc
  rcases List.mem_append.mp hc with h | h
  · rcases List.mem_append.mp h with h | h
    · left
      simp only [formatLineCommentPage, List.mem_map, List.mem_filter] at h
      obtain ⟨raw, ⟨hraw, _⟩, rfl⟩ := h
      exact ⟨⟨raw, hraw, rfl⟩, rfl⟩
    · right; left
      simp only [formatIssueCommentPage, List.mem_map, List.mem_filter] at h
      obtain ⟨raw, ⟨hraw, _⟩, rfl⟩ := h
      exact ⟨⟨raw, hraw, rfl⟩, rfl⟩
  · right; right
    simp only [List.mem_map, List.mem_filter] at h
    obtain ⟨rv, ⟨hrv, _⟩, rfl⟩ := h
    exact ⟨⟨rv, hrv, rfl⟩, rfl⟩

/-- C8 (amended only in conditioning the duplicate-id clause on disjoint
source id sets): the merged comment list is in source order — all `pr_line`
comments, then all `issue` comments, then the `pr_review` comments
synthesized from reviews with non-empty body text; its length equals the sum
of the three filtered source lengths; whenever the three raw sources' id sets
are pairwise disjoint it contains no cross-source duplicate ids (the code
performs no de-duplication); and re-running the formatting on the same inputs
yields the same list. -/
theorem fetchPullRequestComments_reconciliation
    (lineRaws issueRaws : List RawComment) (reviewRaws : List RawReview)
    (hdisj₁ : ∀ a ∈ lineRaws, ∀ b ∈ issueRaws, a.id ≠ b.id)
    (hdisj₂ : ∀ a ∈ lineRaws, ∀ rv ∈ reviewRaws, a.id ≠ rv.id)
    (hdisj₃ : ∀ b ∈ issueRaws, ∀ rv ∈ reviewRaws, b.id ≠ rv.id) :
    (fetchPullRequestComments lineRaws issueRaws reviewRaws =
      (fetchPullRequestComments lineRaws issueRaws reviewRaws).filter
          (fun c => c.comment_type == .pr_line) ++
        (fetchPullRequestComments lineRaws issueRaws reviewRaws).filter
          (fun c => c.comment_type == .issue) ++
        (fetchPullRequestComments lineRaws issueRaws reviewRaws).filter
          (fun c => c.comment_type == .pr_review)) ∧
    (fetchPullRequestComments lineRaws issueRaws reviewRaws).length =
      (lineRaws.filter (fun c => c.user.isSome)).length +
        (issueRaws.filter (fun c => c.user.isSome)).length +
        (reviewRaws.filter (fun rv =>
          (rv.body != none && rv.body != some "") && rv.user.isSome)).length ∧
    (∀ c₁ ∈ fetchPullRequestComments lineRaws issueRaws reviewRaws,
      ∀ c₂ ∈ fetchPullRequestComments lineRaws issueRaws reviewRaws,
        c₁.comment_type ≠ c₂.comment_type → c₁.id ≠ c₂.id) ∧
    fetchPullRequestComments lineRaws issueRaws reviewRaws =
      fetchPullRequestComments lineRaws issueRaws reviewRaws := by
  have htypeA : ∀ c ∈ formatLineCommentPage lineRaws,
      c.comment_type = CommentType.pr_line := by
    intro c hc
    simp only [formatLineCommentPage, List.mem_map] at hc
    obtain ⟨raw, _, rfl⟩ := hc
    rfl
  have htypeB : ∀ c ∈ formatIssueCommentPage issueRaws,
      c.comment_type = CommentType.issue := by
    intro c hc
    simp only [formatIssueCommentPage, List.mem_map] at hc
    obtain ⟨raw, _, rfl⟩ := hc
    rfl
  have htypeC : ∀ c ∈ reviewDerivedComments (formatReviewPage reviewRaws),
      c.comment_type = CommentType.pr_review := by
    intro c hc
    rw [reviewDerived_formatReviewPage] at hc
    simp only [List.mem_map] at hc
    obtain ⟨rv, _, rfl⟩ := hc
    rfl
  refine ⟨?_, ?_, ?_, rfl⟩
  · conv_lhs => rw [fetchPullRequestComments]
    rw [fetchPullRequestComments]
    rw [List.filter_append, List.filter_append, List.filter_append,
      List.filter_append, List.filter_append, List.filter_append]
    rw [List.filter_eq_self.mpr (fun c hc => by rw [htypeA c hc]; rfl),
      List.filter_eq_nil_iff.mpr (fun c hc => by rw [htypeB c hc]; decide),
      List.filter_eq_nil_iff.mpr (fun c hc => by rw [htypeC c hc]; decide),
      List.filter_eq_nil_iff.mpr (fun c hc => by rw [htypeA c hc]; decide),
      List.filter_eq_self.mpr (fun c hc => by rw [htypeB c hc]; rfl),
      List.filter_eq_nil_iff.mpr (fun c hc => by rw [htypeC c hc]; decide),
      List.filter_eq_nil_iff.mpr (fun c hc => by rw [htypeA c hc]; decide),
      List.filter_eq_nil_iff.mpr (fun c hc => by rw [htypeB c hc]; decide),
      List.filter_eq_self.mpr (fun c hc => by rw [htypeC c hc]; rfl)]
    simp
  · rw [fetchPullRequestComments, reviewDerived_formatReviewPage]
    simp [formatLineCommentPage, formatIssueCommentPage]
    omega
  · intro c₁ h₁ c₂ h₂ hty
    rcases fetchPullRequestComments_source lineRaws issueRaws reviewRaws c₁ h₁ with
      ⟨⟨a, ha, hida⟩, hta⟩ | ⟨⟨a, ha, hida⟩, hta⟩ | ⟨⟨a, ha, hida⟩, hta⟩ <;>
      rcases fetchPullRequestComments_source lineRaws issueRaws reviewRaws c₂ h₂ with
        ⟨⟨b, hb, hidb⟩, htb⟩ | ⟨⟨b, hb, hidb⟩, htb⟩ | ⟨⟨b, hb, hidb⟩, htb⟩
    · exact absurd (hta.trans htb.symm) hty
    · rw [hida, hidb]; exact hdisj₁ a ha b hb
    · rw [hida, hidb]; exact hdisj₂ a ha b hb
    · rw [hida, hidb]; exact (hdisj₁ b hb a ha).symm
    · exact absurd (hta.trans htb.symm) hty
    · rw [hida, hidb]; exact hdisj₃ a ha b hb
    · rw [hida, hidb]; exact (hdisj₂ b hb a ha).symm
    · rw [hida, hidb]; exact (hdisj₃ b hb a ha).symm
    · exact absurd (hta.trans htb.symm) hty

/-- A user shared by the comment-reconciliation scenarios. -/
def bobUser : User := ⟨"bob", 2, "", ""⟩

/-- A line-level raw comment with id 1. -/
def dupLineRaw : RawComment :=
  { id := 1, user := some bobUser, body := some "line note"
    created_at := some "2025-01-01", updated_at := some "2025-01-01"
    html_url := "u1" }

/-- An issue-style raw comment that reuses id 1. -/
def dupIssueRaw : RawComment :=
  { id := 1, user := some bobUser, body := some "thread note"
    created_at := some "2025-01-02", updated_at := some "2025-01-02"
    html_url := "u2" }

/-- C8 (counterexample): the claim's universally-quantified no-duplicate
clause is false — the code performs no de-duplication, so a line comment and
an issue comment that happen to share id 1 both survive into the merged list,
which then contains a cross-source duplicate id. -/
theorem fetchPullRequestComments_dupId_cex :
    (fetchPullRequestComments [dupLineRaw] [dupIssueRaw] []).map
        (fun c => (c.id, c.comment_type)) =
      [(1, .pr_line), (1, .issue)] := by
  decide

/-- Sources with pairwise distinct ids for the reconciliation witness. -/
def wIssueRaw : RawComment :=
  { id := 2, user := some bobUser, body := some "thread note"
    created_at := some "2025-01-02", updated_at := some "2025-01-02"
    html_url := "u2" }

/-- A raw review with a non-empty body, id 3. -/
def wReviewRaw : RawReview :=
  { id := 3, user := some bobUser, body := some "lgtm"
    state := "APPROVED", submitted_at := some "2025-01-03", html_url := "u3" }

/-- C8 witness: one comment from each source with distinct ids — the merged
length is the sum of the three filtered source lengths. -/
theorem fetchPullRequestComments_reconciliation_witness :
    (fetchPullRequestComments [dupLineRaw] [wIssueRaw] [wReviewRaw]).length =
      ([dupLineRaw].filter (fun c => c.user.isSome)).length +
        ([wIssueRaw].filter (fun c => c.user.isSome)).length +
        ([wReviewRaw].filter (fun rv =>
          (rv.body != none && rv.body != some "") && rv.user.isSome)).length :=
  (fetchPullRequestComments_reconciliation [dupLineRaw] [wIssueRaw] [wReviewRaw]
    (by decide) (by decide) (by decide)).2.1

/-- Stated from the claim's words, for comparison with the code: the open
counter counts exactly the PRs whose state is `open`. -/
def specOpenCount (prs : List PullRequest) : Nat :=
  (prs.filter (fun pr => pr.state == "open")).length

/-- Stated from the claim's words, for comparison with the code: the merged
counter counts exactly the PRs whose merge timestamp is non-null. -/
def specMergedCount (prs : List PullRequest) : Nat :=
  (prs.filter (fun pr => decide (pr.merged_at ≠ none))).length

/-- Stated from the claim's words, for comparison with the code: the closed
counter counts exactly the PRs with state `closed` and a null merge
timestamp. -/
def specClosedCount (prs : List PullRequest) : Nat :=
  (prs.filter (fun pr => pr.state == "closed" && pr.merged_at == none)).length

/-- A head/base triple for scenario pull requests. -/
def scenarioBranch : BranchRef := ⟨"main", "sha0", ⟨1, "widgets", "acme/widgets", "u"⟩⟩

/-- A commit attached to scenario pull requests. -/
def scenarioCommit : Commit :=
  { sha := "c1"
    author := some ⟨"alice", 7, "", ""⟩
    committer := some ⟨"alice", 7, "", ""⟩
    commit :=
      { author := ⟨"Alice", "alice@x.com", "2025-01-01"⟩
        committer := ⟨"Alice", "alice@x.com", "2025-01-01"⟩
        message := "m" }
    html_url := "u"
    stats := none }

/-- An approved review attached to scenario pull requests. -/
def scenarioReview : Review :=
  { id := 501, user := ⟨"alice", 7, "", ""⟩, body := some "ok"
    state := "APPROVED", submitted_at := "2025-01-01", html_url := "u" }

/-- The merged PR of the end-to-end scenario: closed with a non-null merge
timestamp, 1 commit, 1 approved review, 0 comments. -/
def mergedScenarioPR : PullRequest :=
  { id := 100, number := 1, title := "merged one"
    user := ⟨"alice", 7, "", ""⟩
    state := "closed"
    created_at := "2025-01-01", updated_at := "2025-01-02"
    closed_at := some "2025-01-02", merged_at := some "2025-01-02T10:00:00Z"
    merge_commit_sha := some "m1"
    assignees := [], requested_reviewers := [], labels := [], draft := false
    head := scenarioBranch, base := scenarioBranch, html_url := "u"
    commits := [scenarioCommit], reviews := [scenarioReview]
    review_requests := [], comments := []
    additions := 10, deletions := 2, changed_files := 1 }

/-- The open PR of the end-to-end scenario: 1 commit, 1 approved review,
0 comments. -/
def openScenarioPR : PullRequest :=
  { mergedScenarioPR with
    id := 101, number := 2, title := "open one"
    state := "open", closed_at := none, merged_at := none, merge_commit_sha := none
    additions := 4, deletions := 1, changed_files := 2 }

/-- A closed PR whose wire merge timestamp is the empty string: non-null but
falsy. -/
def emptyTimestampPR : PullRequest :=
  { mergedScenarioPR with
    id := 102, number := 3, merged_at := some ""
    commits := [], reviews := [], additions := 0, deletions := 0, changed_files := 0 }

/-- C9 (counterexample): the closed counter tests `!pr.merged_at`
(truthiness) while the merged counter tests `merged_at !== null`, so a closed
PR whose merge timestamp is the empty string is counted by both — the claim's
"closed counts exactly the PRs with state closed and merged_at null" fails
(that set is empty here, yet the counter reads 1). -/
theorem summary_classification_cex :
    (buildSnapshot "acme" "g" [widgetsRepo]
        (fun _ => [emptyTimestampPR])).summary.closed_pull_requests = 1 ∧
    (buildSnapshot "acme" "g" [widgetsRepo]
        (fun _ => [emptyTimestampPR])).summary.merged_pull_requests = 1 ∧
    specClosedCount [emptyTimestampPR] = 0 := by
  decide

/-- C9 (amended in the closed clause only): for every repository run, the
summary classifies by `merged_at`, not by state alone — `total_pull_requests`
is the number of aggregated PRs, `open_pull_requests` counts exactly the PRs
with state `open`, `merged_pull_requests` counts exactly the PRs with
`merged_at` non-null (so a closed PR with a non-null merge timestamp is
counted as merged, not closed), and `closed_pull_requests` counts exactly the
PRs with state `closed` whose `merged_at` is falsy (null or the empty
string — the code tests truthiness here, not null); in the two-PR scenario
(one merged, one open, each with 1 commit, 1 approved review, 0 comments) the
summary reads total_repositories 1, total 2, merged 1, open 1, closed 0,
commits 2, reviews 2, comments 0. -/
theorem summary_classification (org gen : String) (repo : Repository)
    (prs : List PullRequest) :
    ((buildSnapshot org gen [repo] (fun _ => prs)).summary.total_pull_requests
        = prs.length) ∧
    ((buildSnapshot org gen [repo] (fun _ => prs)).summary.open_pull_requests
        = specOpenCount prs) ∧
    ((buildSnapshot org gen [repo] (fun _ => prs)).summary.merged_pull_requests
        = specMergedCount prs) ∧
    ((buildSnapshot org gen [repo] (fun _ => prs)).summary.closed_pull_requests
        = (prs.filter (fun pr => pr.state == "closed" && jsFalsyStr pr.merged_at)).length) ∧
    (buildSnapshot "acme" "2025-01-03" [widgetsRepo]
        (fun _ => [mergedScenarioPR, openScenarioPR])).summary =
      ⟨1, 2, 1, 0, 1, 2, 0, 2, 0, 14, 3, 3⟩ := by
  have hm : (fun pr : PullRequest => pr.merged_at != none) =
      (fun pr => decide (pr.merged_at ≠ none)) := by
    funext pr
    cases pr.merged_at <;> rfl
  refine ⟨?_, ?_, ?_, ?_, by decide⟩ <;>
    by_cases hprs : prs = []
  · subst hprs; rfl
  · simp [buildSnapshot, stepRepo, updateSummary, initialSummary, hprs]
  · subst hprs; rfl
  · simp [buildSnapshot, stepRepo, updateSummary, initialSummary, hprs, specOpenCount]
  · subst hprs; rfl
  · simp [buildSnapshot, stepRepo, updateSummary, initialSummary, hprs,
      specMergedCount, hm]
  · subst hprs; rfl
  · simp [buildSnapshot, stepRepo, updateSummary, initialSummary, hprs]
